import Mathlib

/-!
Verification of the AMP method-call layer (landscape/lib/amp.py).

The development shallowly embeds the core of the module:

* `PyValue` — the tagged sum of values that can cross the wire (spec section 3);
* `MethodCallArgument.check` — the top-level serializability test;
* `Method` — the per-method declaration (name plus extra keyword arguments);
* `MethodCallProtocol._call_object_method` — the dispatcher;
* `RemoteObject` sender — the client-side proxy that turns attribute access
  into a MethodCall command;
* `get_nested_attr` — dotted attribute-path resolution;
* a small heap model of Python dict mutation, used to state framing facts.

Python exceptions are modelled by `PyExc`; a fallible computation returns
`Except PyExc _`.  Python dicts are association lists with unique keys kept in
insertion order, and the dict operations below implement the CPython update
semantics (overwrite in place, append fresh keys at the end).
-/

/-- A Python value from the bpickle-serializable universe, plus `obj`, which
stands for any other Python object (not serializable at top level).  Floats are
carried opaquely by their bit pattern; no float arithmetic is modelled. -/
inductive PyValue where
  | none
  | bool (b : Bool)
  | int (n : Int)
  | float (bits : Nat)
  | str (s : String)
  | bytes (bs : List Nat)
  | list (xs : List PyValue)
  | dict (entries : List (String × PyValue))
  | obj (id : Nat)

/-- A Python dict with string keys, in insertion order. -/
abbrev Dict := List (String × PyValue)

/-- A Python exception.  `methodCallError` embeds the MethodCallError class of
the source; `attributeError` an AttributeError; `other` stands for any other
exception raised by user code. -/
inductive PyExc where
  | methodCallError (msg : String)
  | attributeError (name : String)
  | other (tag : String)
deriving DecidableEq

/-- CPython assignment `d[k] = v`: overwrite the first binding of `k` in place,
otherwise append the new binding at the end. -/
def assocSet {α : Type} : List (String × α) → String → α → List (String × α)
  | [], k, v => [(k, v)]
  | (k0, v0) :: rest, k, v =>
    if k0 = k then (k0, v) :: rest else (k0, v0) :: assocSet rest k v

/-- CPython lookup `d.get(k)`: the first binding of `k`, if any. -/
def assocGet {α : Type} : List (String × α) → String → Option α
  | [], _ => Option.none
  | (k0, v0) :: rest, k => if k0 = k then some v0 else assocGet rest k

/-- CPython `d.update(other)`: set every binding of `other` in order. -/
def dictUpdate (d other : Dict) : Dict :=
  other.foldl (fun acc kv => assocSet acc kv.1 kv.2) d

/-- Serializability test of `MethodCallArgument.check`: membership of the
top-level type in the dumps table.  The bpickle dumps table itself is not under
src; modelled from the spec, which fixes the encodable set as null, bool, int,
float, string, bytes, sequence and mapping (spec sections 3 and 9).  The check
is a top-level type test only, exactly as in the source. -/
def MethodCallArgument.check : PyValue → Bool
  | .obj _ => false
  | _ => true

/-- The body of an exposed method: positional arguments and keyword arguments
in, either a value or a raised exception out. -/
abbrev PyMethod := List PyValue → Dict → Except PyExc PyValue

/-- The object exposed by the factory; `getattr` is Python attribute lookup on
it, yielding a bound method when the attribute exists. -/
structure ExposedObj where
  getattr : String → Option PyMethod

/-- The `Method` marker class: a method name together with the extra keyword
arguments (keyword name mapped to a dotted protocol-attribute path). -/
structure Method where
  name : String
  kwargs : List (String × String)

/-- A Python object as seen by nested attribute traversal: its value
representation together with its named attributes. -/
inductive AttrTree where
  | mk : PyValue → List (String × AttrTree) → AttrTree

/-- The value representation of an object. -/
def AttrTree.value : AttrTree → PyValue
  | .mk v _ => v

/-- The named attributes of an object. -/
def AttrTree.fields : AttrTree → List (String × AttrTree)
  | .mk _ fs => fs

/-- Python `getattr(obj, name)` on the attribute tree. -/
def getattrTree (obj : AttrTree) (name : String) : Option AttrTree :=
  assocGet obj.fields name

/-- `get_nested_attr(obj, path)`: like getattr but over a dotted path; with the
empty path the object itself is returned, otherwise the path is split on the
dot and getattr is applied successively. -/
def get_nested_attr (obj : AttrTree) (path : String) : Option AttrTree :=
  if path = "" then some obj
  else (path.splitOn ".").foldlM (fun attr n => getattrTree attr n) obj

/-- Successive attribute lookup along a list of names, written as plain
recursion; used to state what `get_nested_attr` computes. -/
def lookupChain : AttrTree → List String → Option AttrTree
  | obj, [] => some obj
  | obj, n :: rest =>
    match getattrTree obj n with
    | some attr => lookupChain attr rest
    | Option.none => Option.none

/-- The server factory: holds the exposed object. -/
structure MethodCallServerFactory where
  object : ExposedObj

/-- The protocol: the declared method list, the factory, and the attribute
namespace of the protocol object itself (the root of `attrs` is the protocol
object, against which extra keyword-argument paths are resolved). -/
structure MethodCallProtocol where
  methods : List Method
  factory : MethodCallServerFactory
  attrs : AttrTree

/-- The whitelist table built in the protocol constructor: a dict from method
name to `Method`, filled from the declared list in order. -/
def MethodCallProtocol._methods_by_name (p : MethodCallProtocol) :
    List (String × Method) :=
  p.methods.foldl (fun acc m => assocSet acc m.name m) []

/-- A single quote character, used in the forbidden-method message. -/
def squote : String := Char.toString (Char.ofNat 39)

/-- The message of the forbidden-method error: the requested name, single
quoted. -/
def forbiddenMsg (name : String) : String :=
  "Forbidden method " ++ squote ++ name ++ squote

/-- The message of the non-serializable-result error. -/
def nonSerializableMsg : String := "Non-serializable result"

/-- `method_args` assembly: a fresh list, extended with `args` when that slot
is truthy (present and non-empty). -/
def assembleArgs (args : Option (List PyValue)) : List PyValue :=
  match args with
  | some l => if l.isEmpty then [] else l
  | Option.none => []

/-- The extra keyword-argument loop of the dispatcher: for each declared
(key, path) pair in order, resolve the path against the protocol object and
set the key in the keyword-argument dict; a failing resolution raises. -/
def resolveExtras (proto : AttrTree) :
    List (String × String) → Dict → Except PyExc Dict
  | [], base => Except.ok base
  | (k, path) :: rest, base =>
    match get_nested_attr proto path with
    | some attr => resolveExtras proto rest (assocSet base k attr.value)
    | Option.none => Except.error (PyExc.attributeError path)

/-- `method_kwargs` assembly: a fresh dict, updated with the caller kwargs when
that slot is truthy, then overwritten by the resolved extra arguments. -/
def assembleKwargs (proto : AttrTree) (method : Method) (kwargs : Option Dict) :
    Except PyExc Dict :=
  let method_kwargs : Dict := []
  let method_kwargs :=
    match kwargs with
    | some kw => if kw.isEmpty then method_kwargs else dictUpdate method_kwargs kw
    | Option.none => method_kwargs
  resolveExtras proto method.kwargs method_kwargs

/-- The dispatcher `_call_object_method`: whitelist lookup, attribute lookup on
the exposed object, argument assembly, invocation, result validation.  The
successful response is the dict with the single key result. -/
def MethodCallProtocol._call_object_method (p : MethodCallProtocol)
    (name : String) (args : Option (List PyValue)) (kwargs : Option Dict) :
    Except PyExc Dict :=
  match assocGet p._methods_by_name name with
  | Option.none => Except.error (PyExc.methodCallError (forbiddenMsg name))
  | some method =>
    match p.factory.object.getattr name with
    | Option.none => Except.error (PyExc.attributeError name)
    | some method_func =>
      match assembleKwargs p.attrs method kwargs with
      | Except.error e => Except.error e
      | Except.ok method_kwargs =>
        match method_func (assembleArgs args) method_kwargs with
        | Except.error e => Except.error e
        | Except.ok result =>
          if MethodCallArgument.check result
          then Except.ok [("result", result)]
          else Except.error (PyExc.methodCallError nonSerializableMsg)

/-! ## The remote proxy (`RemoteObject`)

A `MethodCall` command as handed to `callRemote`, and the sender closure
produced by `_create_method_call_sender`.  The connection is modelled as the
list of commands sent so far; sending appends.  The deferred returned by the
sender is modelled by its success callback, which projects the result field
out of the response box. -/

/-- The keyword arguments of one `callRemote(MethodCall, ...)` invocation. -/
structure MethodCallCmd where
  name : String
  args : Option (List PyValue)
  kwargs : Option Dict

/-- A sender closure: given the commands already sent, the positional and the
keyword arguments, it yields the new command list and the success callback of
the returned deferred. -/
abbrev SenderFun :=
  List MethodCallCmd → List PyValue → Dict →
    List MethodCallCmd × (Dict → Option PyValue)

/-- The closure built by `_create_method_call_sender(name)`: copy the
arguments, send one MethodCall command with the given name, and return the
deferred whose callback projects the result field of the response. -/
def send_method_call (name : String) : SenderFun :=
  fun sent args kwargs =>
    let method_call_name := name
    let method_call_args := args
    let method_call_kwargs := kwargs
    (sent ++ [⟨method_call_name, some method_call_args, some method_call_kwargs⟩],
     fun response => assocGet response "result")

/-- The attribute names on a `RemoteObject` found by normal lookup, for which
`__getattr__` is never invoked. -/
def reservedAttrs : List String := ["_protocol", "protocol", "_create_method_call_sender"]

/-- `RemoteObject.__getattr__`: Python calls it only for names not found by
normal lookup; for every such name it returns the sender closure.  A reserved
name resolves to the ordinary (non-sender) attribute, modelled as `none`. -/
def remoteGetattr (name : String) : Option SenderFun :=
  if name ∈ reservedAttrs then Option.none else some (send_method_call name)

/-! ## A heap of mutable dicts

Framing facts about the dispatcher and the sender need Python object identity:
a dict variable is a reference into a heap.  `Heap.mem` maps every address to
the dict stored there; addresses at or above `next` are unallocated (their
content is the empty dict and no live reference points at them). -/

/-- A heap of dicts: allocation counter and contents. -/
structure Heap where
  next : Nat
  mem : Nat → Dict

/-- Store a dict at an address. -/
def Heap.write (h : Heap) (a : Nat) (d : Dict) : Heap :=
  ⟨h.next, fun x => if x = a then d else h.mem x⟩

/-- Allocate a fresh dict, returning the new heap and its address. -/
def Heap.alloc (h : Heap) (d : Dict) : Heap × Nat :=
  (⟨h.next + 1, fun x => if x = h.next then d else h.mem x⟩, h.next)

/-- The extra keyword-argument loop, acting on the heap: each iteration
mutates the method-kwargs dict at address `mkA` in place; a failed resolution
raises, leaving the heap as it was at that point. -/
def applyExtrasHeap (proto : AttrTree) (mkA : Nat) :
    List (String × String) → Heap → Heap × Option PyExc
  | [], h => (h, Option.none)
  | (k, path) :: rest, h =>
    match get_nested_attr proto path with
    | some attr =>
      applyExtrasHeap proto mkA rest (h.write mkA (assocSet (h.mem mkA) k attr.value))
    | Option.none => (h, some (PyExc.attributeError path))

/-- The `method_kwargs.update(kwargs)` step on the heap: when the caller
kwargs slot is present and its dict is truthy, merge its contents into the
method-kwargs dict at `mkA` in place. -/
def updateKwargsHeap (mkA : Nat) (kwargsA : Option Nat) (h1 : Heap) : Heap :=
  match kwargsA with
  | some a =>
    if (h1.mem a).isEmpty then h1
    else h1.write mkA (dictUpdate (h1.mem mkA) (h1.mem a))
  | Option.none => h1

/-- The tail of the dispatcher on the heap: extra-argument injection into the
dict at `mkA`, invocation, result validation. -/
def invokeWithHeap (proto : AttrTree) (method : Method) (method_func : PyMethod)
    (method_args : List PyValue) (mkA : Nat) (h2 : Heap) :
    Heap × Except PyExc Dict :=
  match applyExtrasHeap proto mkA method.kwargs h2 with
  | (h3, some e) => (h3, Except.error e)
  | (h3, Option.none) =>
    match method_func method_args (h3.mem mkA) with
    | Except.error e => (h3, Except.error e)
    | Except.ok result =>
      if MethodCallArgument.check result
      then (h3, Except.ok [("result", result)])
      else (h3, Except.error (PyExc.methodCallError nonSerializableMsg))

/-- The dispatcher acting on the heap: the caller kwargs slot carries a dict
address (or is absent); `method_kwargs = {}` allocates a fresh dict, `update`
and the extra-argument loop mutate only that fresh dict. -/
def callObjectMethodHeap (p : MethodCallProtocol) (h : Heap) (name : String)
    (args : Option (List PyValue)) (kwargsA : Option Nat) :
    Heap × Except PyExc Dict :=
  match assocGet p._methods_by_name name with
  | Option.none => (h, Except.error (PyExc.methodCallError (forbiddenMsg name)))
  | some method =>
    match p.factory.object.getattr name with
    | Option.none => (h, Except.error (PyExc.attributeError name))
    | some method_func =>
      let allocated := h.alloc []
      invokeWithHeap p.attrs method method_func (assembleArgs args) allocated.2
        (updateKwargsHeap allocated.2 kwargsA allocated.1)

/-- A MethodCall command whose kwargs slot holds a dict address. -/
structure MethodCallCmdH where
  name : String
  args : List PyValue
  kwargsAddr : Nat

/-- The sender closure acting on the heap: `kwargs.copy()` allocates a fresh
dict with the same contents before the command is sent. -/
def sendMethodCallHeap (h : Heap) (name : String) (args : List PyValue)
    (kwargsA : Nat) : Heap × MethodCallCmdH :=
  let copied := h.alloc (h.mem kwargsA)
  (copied.1, ⟨name, args, copied.2⟩)

/-! ## Concrete instances used by the witnesses -/

/-- An exposed method adding two integers. -/
def addFunc : PyMethod := fun args kw =>
  match args, kw with
  | [PyValue.int a, PyValue.int b], [] => Except.ok (PyValue.int (a + b))
  | _, _ => Except.error (PyExc.other "TypeError")

/-- An exposed method returning a non-serializable object (a live handle). -/
def badFunc : PyMethod := fun _ _ => Except.ok (PyValue.obj 99)

/-- An exposed method whose body raises. -/
def boomFunc : PyMethod := fun _ _ =>
  Except.error (PyExc.other "ZeroDivisionError")

/-- An exposed method echoing its caller_id keyword argument. -/
def whoamiFunc : PyMethod := fun _ kw =>
  match assocGet kw "caller_id" with
  | some v => Except.ok v
  | Option.none => Except.error (PyExc.other "TypeError")

/-- A concrete exposed object with methods add, bad, boom and whoami; it has
no attribute named missing. -/
def egObj : ExposedObj :=
  ⟨fun n =>
    if n = "add" then some addFunc
    else if n = "bad" then some badFunc
    else if n = "boom" then some boomFunc
    else if n = "whoami" then some whoamiFunc
    else Option.none⟩

/-- A concrete protocol attribute namespace; the root is the protocol object
itself. -/
def egAttrs : AttrTree :=
  AttrTree.mk (PyValue.obj 7)
    [("factory", AttrTree.mk (PyValue.obj 8)
      [("object", AttrTree.mk (PyValue.obj 9) [])])]

/-- A concrete protocol.  The name missing is whitelisted although the exposed
object has no such attribute; whoami declares one extra keyword argument with
the empty path. -/
def egProto : MethodCallProtocol :=
  ⟨[⟨"add", []⟩, ⟨"bad", []⟩, ⟨"boom", []⟩, ⟨"missing", []⟩,
    ⟨"whoami", [("caller_id", "")]⟩], ⟨egObj⟩, egAttrs⟩

/-- A concrete one-dict heap: address 0 holds a non-empty dict. -/
def egHeap : Heap := ⟨1, fun _ => [("x", PyValue.int 1)]⟩

/-! ## Association-list lemmas -/

theorem assocGet_assocSet_self {α : Type} (d : List (String × α)) (k : String)
    (v : α) : assocGet (assocSet d k v) k = some v := by
  induction d with
  | nil => simp [assocSet, assocGet]
  | cons hd tl ih =>
    obtain ⟨k0, v0⟩ := hd
    by_cases h : k0 = k <;> simp [assocSet, assocGet, h, ih]

theorem assocGet_assocSet_other {α : Type} (d : List (String × α))
    (k k' : String) (v : α) (h : k' ≠ k) :
    assocGet (assocSet d k' v) k = assocGet d k := by
  induction d with
  | nil => simp [assocSet, assocGet, h]
  | cons hd tl ih =>
    obtain ⟨k0, v0⟩ := hd
    by_cases h0 : k0 = k'
    · subst h0
      simp [assocSet, assocGet, h]
    · simp [assocSet, h0]
      by_cases h1 : k0 = k <;> simp [assocGet, h1, ih]

/-! ## Extras-resolution lemmas -/

/-- A key declared by no extra pair is left untouched by the resolution
loop. -/
theorem resolveExtras_get_of_notMem (proto : AttrTree) :
    ∀ (extras : List (String × String)) (base fk : Dict) (key : String),
      key ∉ extras.map Prod.fst →
      resolveExtras proto extras base = Except.ok fk →
      assocGet fk key = assocGet base key
  | [], base, fk, key, _, hok => by
    simp only [resolveExtras, Except.ok.injEq] at hok
    rw [hok]
  | (k, path) :: rest, base, fk, key, hnot, hok => by
    rw [List.map_cons] at hnot
    have hk : key ≠ k := fun h => hnot (h ▸ List.mem_cons_self _ _)
    have hrest : key ∉ rest.map Prod.fst :=
      fun h => hnot (List.mem_cons_of_mem _ h)
    cases hg : get_nested_attr proto path with
    | none => simp [resolveExtras, hg] at hok
    | some attr =>
      simp only [resolveExtras, hg] at hok
      rw [resolveExtras_get_of_notMem proto rest
        (assocSet base k attr.value) fk key hrest hok]
      exact assocGet_assocSet_other base key k attr.value (Ne.symm hk)

/-- A declared extra pair whose path resolves ends up bound in the final
keyword-argument dict, whatever was in the base dict at that key. -/
theorem resolveExtras_get_of_mem (proto : AttrTree) :
    ∀ (extras : List (String × String)) (base fk : Dict)
      (key path : String) (t : AttrTree),
      (extras.map Prod.fst).Nodup →
      (key, path) ∈ extras →
      get_nested_attr proto path = some t →
      resolveExtras proto extras base = Except.ok fk →
      assocGet fk key = some t.value
  | [], _, _, _, _, _, _, hmem, _, _ => absurd hmem (List.not_mem_nil _)
  | (k, p) :: rest, base, fk, key, path, t, hnodup, hmem, hres, hok => by
    rw [List.map_cons] at hnodup
    obtain ⟨hknotin, hnodup'⟩ := List.nodup_cons.mp hnodup
    rcases List.mem_cons.mp hmem with hhd | htl
    · obtain ⟨hk, hp⟩ := Prod.mk.inj hhd
      subst hk
      subst hp
      simp only [resolveExtras, hres] at hok
      rw [resolveExtras_get_of_notMem proto rest
        (assocSet base key t.value) fk key hknotin hok]
      exact assocGet_assocSet_self base key t.value
    · cases hg : get_nested_attr proto p with
      | none => simp [resolveExtras, hg] at hok
      | some attr =>
        simp only [resolveExtras, hg] at hok
        exact resolveExtras_get_of_mem proto rest
          (assocSet base k attr.value) fk key path t hnodup' htl hres hok

/-! ## Heap-framing lemmas -/

theorem Heap.write_mem_other (h : Heap) (a b : Nat) (d : Dict) (hab : a ≠ b) :
    (h.write b d).mem a = h.mem a := by
  simp [Heap.write, hab]

theorem applyExtrasHeap_frame (proto : AttrTree) (mkA : Nat)
    (extras : List (String × String)) (h : Heap) (a : Nat) (ha : a ≠ mkA) :
    ((applyExtrasHeap proto mkA extras h).1).mem a = h.mem a := by
  induction extras generalizing h with
  | nil => rfl
  | cons kv rest ih =>
    obtain ⟨k, path⟩ := kv
    cases hg : get_nested_attr proto path with
    | none => simp [applyExtrasHeap, hg]
    | some attr =>
      simp [applyExtrasHeap, hg]
      rw [ih (h.write mkA (assocSet (h.mem mkA) k attr.value))]
      exact Heap.write_mem_other h a mkA _ ha

theorem updateKwargsHeap_frame (mkA : Nat) (kwargsA : Option Nat) (h1 : Heap)
    (a : Nat) (ha : a ≠ mkA) :
    (updateKwargsHeap mkA kwargsA h1).mem a = h1.mem a := by
  cases kwargsA with
  | none => rfl
  | some b =>
    by_cases hb : (h1.mem b).isEmpty
    · simp [updateKwargsHeap, hb]
    · simp [updateKwargsHeap, hb]
      exact Heap.write_mem_other h1 a mkA _ ha

theorem invokeWithHeap_frame (proto : AttrTree) (method : Method)
    (method_func : PyMethod) (method_args : List PyValue) (mkA : Nat)
    (h2 : Heap) (a : Nat) (ha : a ≠ mkA) :
    ((invokeWithHeap proto method method_func method_args mkA h2).1).mem a
      = h2.mem a := by
  unfold invokeWithHeap
  rcases hA : applyExtrasHeap proto mkA method.kwargs h2 with ⟨h3, exc⟩
  have hframe : h3.mem a = h2.mem a := by
    have hall := applyExtrasHeap_frame proto mkA method.kwargs h2 a ha
    rw [hA] at hall
    exact hall
  cases exc with
  | some e => exact hframe
  | none =>
    cases hcall : method_func method_args (h3.mem mkA) with
    | error e =>
      simp only [hcall]
      exact hframe
    | ok result =>
      simp only [hcall]
      by_cases hc : MethodCallArgument.check result = true
      · rw [if_pos hc]
        exact hframe
      · rw [if_neg hc]
        exact hframe

theorem Heap.alloc_mem_old (h : Heap) (d : Dict) (a : Nat) (ha : a < h.next) :
    ((h.alloc d).1).mem a = h.mem a := by
  simp [Heap.alloc, Nat.ne_of_lt ha]

/-- The heap dispatcher never touches any dict allocated before the call: in
particular the caller-supplied kwargs dict is unchanged. -/
theorem callObjectMethodHeap_frame (p : MethodCallProtocol) (h : Heap)
    (name : String) (args : Option (List PyValue)) (kwargsA : Option Nat)
    (a : Nat) (ha : a < h.next) :
    ((callObjectMethodHeap p h name args kwargsA).1).mem a = h.mem a := by
  have hane : a ≠ h.next := Nat.ne_of_lt ha
  unfold callObjectMethodHeap
  cases hm : assocGet p._methods_by_name name with
  | none => rfl
  | some method =>
    cases hf : p.factory.object.getattr name with
    | none => rfl
    | some method_func =>
      simp only
      rw [invokeWithHeap_frame p.attrs method method_func (assembleArgs args)
        (h.alloc []).2 (updateKwargsHeap (h.alloc []).2 kwargsA (h.alloc []).1)
        a hane]
      rw [updateKwargsHeap_frame (h.alloc []).2 kwargsA (h.alloc []).1 a hane]
      exact Heap.alloc_mem_old h [] a ha


/-! ## Claim theorems -/

/-- Claim C1: an incoming MethodCall whose name is not a key of the whitelist
table is rejected with MethodCallError carrying the single-quoted
forbidden-method message, and the exposed object is never consulted: the
outcome is the same for every exposed object. -/
theorem forbidden_method_rejected (p : MethodCallProtocol) (name : String)
    (args : Option (List PyValue)) (kwargs : Option Dict)
    (h : assocGet p._methods_by_name name = Option.none) :
    p._call_object_method name args kwargs =
      Except.error (PyExc.methodCallError (forbiddenMsg name)) ∧
    ∀ obj : ExposedObj,
      MethodCallProtocol._call_object_method { p with factory := ⟨obj⟩ }
        name args kwargs =
      Except.error (PyExc.methodCallError (forbiddenMsg name)) := by
  have h' : ∀ (f : MethodCallServerFactory),
      MethodCallProtocol._call_object_method ⟨p.methods, f, p.attrs⟩
        name args kwargs =
      Except.error (PyExc.methodCallError (forbiddenMsg name)) := by
    intro f
    have hm : MethodCallProtocol._methods_by_name ⟨p.methods, f, p.attrs⟩
        = p._methods_by_name := rfl
    simp [MethodCallProtocol._call_object_method, hm, h]
  exact ⟨h' p.factory, fun obj => h' ⟨obj⟩⟩

/-- Claim C2: a whitelisted invocation whose return value fails the
serializability check is rejected with the non-serializable-result
MethodCallError; no response envelope carrying the value is built. -/
theorem non_serializable_result_rejected (p : MethodCallProtocol)
    (name : String) (args : Option (List PyValue)) (kwargs : Option Dict)
    (method : Method) (method_func : PyMethod) (kw : Dict) (v : PyValue)
    (hm : assocGet p._methods_by_name name = some method)
    (hf : p.factory.object.getattr name = some method_func)
    (hkw : assembleKwargs p.attrs method kwargs = Except.ok kw)
    (hv : method_func (assembleArgs args) kw = Except.ok v)
    (hchk : MethodCallArgument.check v = false) :
    p._call_object_method name args kwargs =
      Except.error (PyExc.methodCallError nonSerializableMsg) := by
  simp [MethodCallProtocol._call_object_method, hm, hf, hkw, hv, hchk]

/-- Claim C3: every extra keyword argument declared by the matched Method
ends up in the keyword arguments handed to the target method (the dict built
by `assembleKwargs`, which the dispatcher passes to the resolved method),
bound to the value of its dotted path resolved against the protocol object at
call time, whatever the caller put at that key; the keys of the extras dict
are distinct, being keys of a Python dict. -/
theorem extras_injected_override (p : MethodCallProtocol) (method : Method)
    (kwargs : Option Dict) (key path : String) (t : AttrTree) (kw : Dict)
    (hne : method.kwargs ≠ [])
    (hnodup : (method.kwargs.map Prod.fst).Nodup)
    (hmem : (key, path) ∈ method.kwargs)
    (hres : get_nested_attr p.attrs path = some t)
    (hok : assembleKwargs p.attrs method kwargs = Except.ok kw) :
    assocGet kw key = some t.value := by
  unfold assembleKwargs at hok
  exact resolveExtras_get_of_mem p.attrs method.kwargs _ kw key path t
    hnodup hmem hres hok

/-- Claim C4: a whitelisted invocation returning an encodable value yields the
success response, the dict binding result to that value. -/
theorem successful_call_returns_result (p : MethodCallProtocol)
    (name : String) (args : Option (List PyValue)) (kwargs : Option Dict)
    (method : Method) (method_func : PyMethod) (kw : Dict) (v : PyValue)
    (hm : assocGet p._methods_by_name name = some method)
    (hf : p.factory.object.getattr name = some method_func)
    (hkw : assembleKwargs p.attrs method kwargs = Except.ok kw)
    (hv : method_func (assembleArgs args) kw = Except.ok v)
    (hchk : MethodCallArgument.check v = true) :
    p._call_object_method name args kwargs = Except.ok [("result", v)] := by
  simp [MethodCallProtocol._call_object_method, hm, hf, hkw, hv, hchk]

/-- Claim C7: an exception raised by the invoked method body leaves the
dispatcher unchanged, as the same exception; it is not caught and not
translated into MethodCallError. -/
theorem method_exception_propagates (p : MethodCallProtocol)
    (name : String) (args : Option (List PyValue)) (kwargs : Option Dict)
    (method : Method) (method_func : PyMethod) (kw : Dict) (e : PyExc)
    (hm : assocGet p._methods_by_name name = some method)
    (hf : p.factory.object.getattr name = some method_func)
    (hkw : assembleKwargs p.attrs method kwargs = Except.ok kw)
    (hraise : method_func (assembleArgs args) kw = Except.error e) :
    p._call_object_method name args kwargs = Except.error e := by
  simp [MethodCallProtocol._call_object_method, hm, hf, hkw, hraise]

/-- Claim C9: the dispatcher treats an absent args slot and an empty args
sequence identically, and an absent kwargs slot and an empty kwargs mapping
identically.  This holds for every requested name, whitelisted or not. -/
theorem absent_equals_empty (p : MethodCallProtocol) (name : String) :
    (∀ kwargs, p._call_object_method name Option.none kwargs =
      p._call_object_method name (some []) kwargs) ∧
    (∀ args, p._call_object_method name args Option.none =
      p._call_object_method name args (some [])) :=
  ⟨fun _ => rfl, fun _ => rfl⟩

/-- Claim C10: a name that is whitelisted but is not an attribute of the
exposed object makes the dispatch raise AttributeError from the attribute
lookup, which is not a MethodCallError with any message. -/
theorem whitelisted_missing_attribute (p : MethodCallProtocol)
    (name : String) (args : Option (List PyValue)) (kwargs : Option Dict)
    (method : Method)
    (hm : assocGet p._methods_by_name name = some method)
    (hf : p.factory.object.getattr name = Option.none) :
    p._call_object_method name args kwargs =
      Except.error (PyExc.attributeError name) ∧
    ∀ msg, p._call_object_method name args kwargs ≠
      Except.error (PyExc.methodCallError msg) := by
  have h1 : p._call_object_method name args kwargs =
      Except.error (PyExc.attributeError name) := by
    simp [MethodCallProtocol._call_object_method, hm, hf]
  refine ⟨h1, fun msg hcontra => ?_⟩
  rw [h1] at hcontra
  simp at hcontra

theorem foldlM_getattr_eq_lookupChain : ∀ (l : List String) (obj : AttrTree),
    l.foldlM (fun attr n => getattrTree attr n) obj = lookupChain obj l
  | [], _ => rfl
  | n :: rest, obj => by
    cases hn : getattrTree obj n with
    | none => simp [List.foldlM, lookupChain, hn]
    | some attr =>
      simp [List.foldlM, lookupChain, hn,
        foldlM_getattr_eq_lookupChain rest attr]

/-- Claim C5: accessing a non-reserved attribute on the remote proxy yields
the sender closure for that name; calling it appends exactly one MethodCall
command carrying the accessed name, the positional arguments and the keyword
arguments to the connection, and the success callback of the returned deferred
projects the result field out of the response. -/
theorem remote_proxy_sender (name : String) (sent : List MethodCallCmd)
    (args : List PyValue) (kwargs : Dict) (response : Dict) (r : PyValue)
    (hname : name ∉ reservedAttrs)
    (hresp : assocGet response "result" = some r) :
    remoteGetattr name = some (send_method_call name) ∧
    (send_method_call name sent args kwargs).1 =
      sent ++ [⟨name, some args, some kwargs⟩] ∧
    (send_method_call name sent args kwargs).2 response = some r := by
  refine ⟨?_, rfl, ?_⟩
  · simp [remoteGetattr, hname]
  · simp [send_method_call, hresp]

/-- Claim C6: resolving the empty path returns the object itself, and
resolving a non-empty dotted path is successive attribute lookup along the
components of the path split on the dot. -/
theorem get_nested_attr_resolution :
    (∀ obj : AttrTree, get_nested_attr obj "" = some obj) ∧
    (∀ (obj : AttrTree) (path : String), path ≠ "" →
      get_nested_attr obj path = lookupChain obj (path.splitOn ".")) := by
  constructor
  · intro obj
    simp [get_nested_attr]
  · intro obj path hp
    simp [get_nested_attr, hp, foldlM_getattr_eq_lookupChain]

/-- Claim C8: neither side mutates the caller-supplied keyword-argument dict.
The heap dispatcher assembles the invocation kwargs in a freshly allocated
dict, so the dict at the caller-supplied address is unchanged after dispatch,
extras included; and the sender copies the keyword dict before sending, so a
later mutation of the caller dict leaves the contents referenced by the sent
command unchanged. -/
theorem dispatcher_and_sender_preserve_caller_dicts :
    (∀ (p : MethodCallProtocol) (h : Heap) (name : String)
       (args : Option (List PyValue)) (a : Nat), a < h.next →
       ((callObjectMethodHeap p h name args (some a)).1).mem a = h.mem a) ∧
    (∀ (h : Heap) (name : String) (args : List PyValue) (a : Nat) (d : Dict),
       a < h.next →
       ((sendMethodCallHeap h name args a).1.write a d).mem
         (sendMethodCallHeap h name args a).2.kwargsAddr = h.mem a) := by
  constructor
  · intro p h name args a ha
    exact callObjectMethodHeap_frame p h name args (some a) a ha
  · intro h name args a d ha
    have hne : ¬ ((h.next : Nat) = a) := fun hc => absurd (hc ▸ ha) (lt_irrefl _)
    simp [sendMethodCallHeap, Heap.alloc, Heap.write, hne]

/-! ## Witnesses -/

/-- Witness for C1: the name anything is not whitelisted by `egProto`; the
dispatch is rejected, also when the exposed object is swapped out. -/
theorem forbidden_method_rejected_witness :
    egProto._call_object_method "anything" Option.none Option.none =
      Except.error (PyExc.methodCallError (forbiddenMsg "anything")) ∧
    MethodCallProtocol._call_object_method
      { egProto with factory := ⟨⟨fun _ => Option.none⟩⟩ }
      "anything" Option.none Option.none =
      Except.error (PyExc.methodCallError (forbiddenMsg "anything")) :=
  ⟨(forbidden_method_rejected egProto "anything" Option.none Option.none
      rfl).1,
   (forbidden_method_rejected egProto "anything" Option.none Option.none
      rfl).2 ⟨fun _ => Option.none⟩⟩

/-- Witness for C2: bad is whitelisted and returns a non-serializable
object. -/
theorem non_serializable_result_rejected_witness :
    egProto._call_object_method "bad" Option.none Option.none =
      Except.error (PyExc.methodCallError nonSerializableMsg) :=
  non_serializable_result_rejected egProto "bad" Option.none Option.none
    ⟨"bad", []⟩ badFunc [] (PyValue.obj 99) rfl rfl rfl rfl rfl

/-- Witness for C3: whoami declares the extra caller_id with the empty path;
the assembled keyword arguments bind caller_id to the protocol object itself,
overriding the caller-supplied value at that key. -/
theorem extras_injected_override_witness :
    assocGet [("caller_id", PyValue.obj 7)] "caller_id" =
      some (PyValue.obj 7) :=
  extras_injected_override egProto ⟨"whoami", [("caller_id", "")]⟩
    (some [("caller_id", PyValue.int 0)]) "caller_id" "" egAttrs
    [("caller_id", PyValue.obj 7)] (by decide) (by decide) (by decide) rfl rfl

/-- Witness for C4: add is whitelisted and adding 2 and 3 resolves to the
response binding result to 5. -/
theorem successful_call_returns_result_witness :
    egProto._call_object_method "add"
      (some [PyValue.int 2, PyValue.int 3]) Option.none =
      Except.ok [("result", PyValue.int 5)] :=
  successful_call_returns_result egProto "add"
    (some [PyValue.int 2, PyValue.int 3]) Option.none
    ⟨"add", []⟩ addFunc [] (PyValue.int 5) rfl rfl rfl rfl rfl

/-- Witness for C5: accessing add on the proxy sends one command and the
callback projects the result field. -/
theorem remote_proxy_sender_witness :
    remoteGetattr "add" = some (send_method_call "add") ∧
    (send_method_call "add" [] [PyValue.int 2, PyValue.int 3] []).1 =
      [] ++ [⟨"add", some [PyValue.int 2, PyValue.int 3], some []⟩] ∧
    (send_method_call "add" [] [PyValue.int 2, PyValue.int 3] []).2
      [("result", PyValue.int 5)] = some (PyValue.int 5) :=
  remote_proxy_sender "add" [] [PyValue.int 2, PyValue.int 3] []
    [("result", PyValue.int 5)] (PyValue.int 5) (by decide) rfl

/-- Witness for C6: the empty path yields the object itself, and a two-step
dotted path is resolved by successive lookup. -/
theorem get_nested_attr_resolution_witness :
    get_nested_attr egAttrs "" = some egAttrs ∧
    get_nested_attr egAttrs "factory.object" =
      lookupChain egAttrs (String.splitOn "factory.object" ".") :=
  ⟨get_nested_attr_resolution.1 egAttrs,
   get_nested_attr_resolution.2 egAttrs "factory.object" (by decide)⟩

/-- Witness for C7: boom is whitelisted and its body raises; the raised
exception comes out of the dispatcher unchanged. -/
theorem method_exception_propagates_witness :
    egProto._call_object_method "boom" Option.none Option.none =
      Except.error (PyExc.other "ZeroDivisionError") :=
  method_exception_propagates egProto "boom" Option.none Option.none
    ⟨"boom", []⟩ boomFunc [] (PyExc.other "ZeroDivisionError") rfl rfl rfl rfl

/-- Witness for C8: dispatching whoami (which injects an extra) over the
one-dict heap leaves the caller dict at address 0 unchanged, and the dict
referenced by a sent command survives a later mutation of the caller dict. -/
theorem dispatcher_and_sender_preserve_caller_dicts_witness :
    ((callObjectMethodHeap egProto egHeap "whoami" Option.none (some 0)).1).mem
      0 = egHeap.mem 0 ∧
    ((sendMethodCallHeap egHeap "add" [PyValue.int 2] 0).1.write 0 []).mem
      (sendMethodCallHeap egHeap "add" [PyValue.int 2] 0).2.kwargsAddr =
      egHeap.mem 0 :=
  ⟨dispatcher_and_sender_preserve_caller_dicts.1 egProto egHeap "whoami"
     Option.none 0 (by decide),
   dispatcher_and_sender_preserve_caller_dicts.2 egHeap "add" [PyValue.int 2]
     0 [] (by decide)⟩

/-- Witness for C10: missing is whitelisted by `egProto` but the exposed
object has no such attribute; the dispatch raises AttributeError and in
particular not the forbidden-method MethodCallError. -/
theorem whitelisted_missing_attribute_witness :
    egProto._call_object_method "missing" Option.none Option.none =
      Except.error (PyExc.attributeError "missing") ∧
    egProto._call_object_method "missing" Option.none Option.none ≠
      Except.error (PyExc.methodCallError (forbiddenMsg "missing")) :=
  ⟨(whitelisted_missing_attribute egProto "missing" Option.none Option.none
      ⟨"missing", []⟩ rfl rfl).1,
   (whitelisted_missing_attribute egProto "missing" Option.none Option.none
      ⟨"missing", []⟩ rfl rfl).2 (forbiddenMsg "missing")⟩
